import Mathlib

/-!
Verification development for the search core of the chess engine in
`src/engine.cpp`.  The engine's external collaborators (board representation,
move generation, hashing, transposition-table storage) are out of scope of the
source file; they are abstracted here exactly where the source consults them:
a game tree carries, per node, the values the board collaborator would report
(static evaluation aggregate, checkmate/stalemate/in-check flags) and, per
move, the values the collaborators would report for that move (captured piece,
static-exchange value, recapture/pawn-push flags).  Every control-flow decision
of the embedded functions is taken from the source.
-/

namespace Engine

/-- Piece colors, as in the source's `Color` enum. -/
inductive Color where
  | WHITE
  | BLACK
deriving DecidableEq, Repr

/-- The opposite color, as computed by `(side == Color::WHITE) ? Color::BLACK : Color::WHITE`. -/
def Color.other : Color → Color
  | .WHITE => .BLACK
  | .BLACK => .WHITE

/-- Piece kinds, as in the source's `PieceType` enum (the `NONE` sentinel is
represented by `Option PieceType` at use sites). -/
inductive PieceType where
  | PAWN
  | KNIGHT
  | BISHOP
  | ROOK
  | QUEEN
  | KING
deriving DecidableEq, Repr

/-- Transposition-table node classifications, as in the source's `NodeType` enum. -/
inductive NodeType where
  | EXACT
  | ALPHA
  | BETA
deriving DecidableEq, Repr

/-- Modelled from the spec: the centipawn piece values `PAWN_VALUE` .. `KING_VALUE`
are declared in `engine.h`, which is not part of `src/`; the spec fixes only the
centipawn scale (a 200-centipawn margin, a `−2×pawn-value` threshold), so the
conventional centipawn values are used.  Every theorem below that depends on a
particular value uses only the pawn value (via the spec's own `−2×pawn-value`
and delta-margin arithmetic) or is parametric in the values. -/
def PAWN_VALUE : Int := 100

/-- Modelled from the spec: see `PAWN_VALUE`. -/
def KNIGHT_VALUE : Int := 320

/-- Modelled from the spec: see `PAWN_VALUE`. -/
def BISHOP_VALUE : Int := 330

/-- Modelled from the spec: see `PAWN_VALUE`. -/
def ROOK_VALUE : Int := 500

/-- Modelled from the spec: see `PAWN_VALUE`. -/
def QUEEN_VALUE : Int := 900

/-- Modelled from the spec: see `PAWN_VALUE`. -/
def KING_VALUE : Int := 20000

/-- Embeds `Engine::getPieceValue` (src/engine.cpp:269-279). -/
def getPieceValue : PieceType → Int
  | .PAWN => PAWN_VALUE
  | .KNIGHT => KNIGHT_VALUE
  | .BISHOP => BISHOP_VALUE
  | .ROOK => ROOK_VALUE
  | .QUEEN => QUEEN_VALUE
  | .KING => KING_VALUE

/-- The enum indices used by `static_cast<int>` on `PieceType` in
`Engine::getMVVLVAScore`; the matrix's own comments fix the order
Pawn, Knight, Bishop, Rook, Queen, King. -/
def pieceIdx : PieceType → Nat
  | .PAWN => 0
  | .KNIGHT => 1
  | .BISHOP => 2
  | .ROOK => 3
  | .QUEEN => 4
  | .KING => 5

/-- The `mvvLvaScores[6][6]` matrix of `Engine::getMVVLVAScore`
(src/engine.cpp:285-293), rows indexed by attacker, columns by victim. -/
def mvvLvaScores : List (List Int) :=
  [[105, 205, 305, 405, 505, 605],
   [104, 204, 304, 404, 504, 604],
   [103, 203, 303, 403, 503, 603],
   [102, 202, 302, 402, 502, 602],
   [101, 201, 301, 401, 501, 601],
   [100, 200, 300, 400, 500, 600]]

/-- Embeds `Engine::getMVVLVAScore` (src/engine.cpp:282-296). -/
def getMVVLVAScore (attacker victim : PieceType) : Int :=
  (mvvLvaScores.getD (pieceIdx attacker) []).getD (pieceIdx victim) 0

/-- Embeds `Engine::getDepthAdjustment` (src/engine.cpp:231-266).  The two
board lookups it performs — `board.getPieceAt(move.to)` (is the move a
capture) and `seeCapture(board, move)` — are passed in as `isCapture` and
`seeVal`. -/
def getDepthAdjustment (isPVMove : Bool) (isCapture : Bool) (seeVal : Int)
    (moveIndex : Nat) : Int :=
  if isPVMove then 0
  else if isCapture ∧ seeVal < 0 then -1
  else if moveIndex < 3 then 0
  else
    let reduction : Int := (if moveIndex ≥ 12 then 3 else if moveIndex ≥ 6 then 2 else 1);
    -(min reduction 2)

/-! ## Static exchange evaluation (`Engine::see`, `Engine::seeCapture`)

`see` scans the 64 squares for pieces of the color opposite to `side` whose
legal-move set contains the target square, and keeps the least valuable one
(src/engine.cpp:194-218).  The board and the target square are fixed through
the whole recursion (the function takes a `const Board&` and never modifies
it), so the scan is abstracted to the fixed list of pieces attacking the
target square, in board-scan order, each with its color and
`getPieceValue`.  The recursion itself cannot be a plain Lean recursion —
nothing it is given decreases — so it is given explicit fuel; `none` means
the recursion has not terminated within that much fuel. -/

/-- One piece attacking the target square, with its color and `getPieceValue`. -/
structure SeePiece where
  color : Color
  value : Int
deriving DecidableEq, Repr

/-- The least-valuable-attacker scan of `Engine::see` (src/engine.cpp:190-218):
starting from the sentinel value 100000 and no attacker, keep the first
strictly smaller attacker of color different from `side`. -/
def leastValuableAttacker (pieces : List SeePiece) (side : Color) : Option Int :=
  let r := pieces.foldl
    (fun (acc : Int × Bool) p =>
      if p.color ≠ side ∧ p.value < acc.1 then (p.value, true) else acc)
    ((100000 : Int), false)
  if r.2 then some r.1 else none

/-- Embeds `Engine::see` (src/engine.cpp:188-229) with explicit fuel.  The
attacker list is the same at every level, exactly as in the source: the
simulated captures are never removed from the (const) board. -/
def seeF : Nat → List SeePiece → Color → Int → Option Int
  | 0, _, _, _ => none
  | n + 1, pieces, side, captureValue =>
    match leastValuableAttacker pieces side with
    | none => some 0
    | some attackerValue =>
      (seeF n pieces side.other attackerValue).map
        (fun r => max 0 (captureValue - r))

/-- Embeds `Engine::seeCapture` (src/engine.cpp:173-185): the captured piece's
value minus the continuation, for a capture by a piece of color
`attackerColor` and value `attackerValue`. -/
def seeCaptureF (fuel : Nat) (pieces : List SeePiece) (victimValue : Int)
    (attackerColor : Color) (attackerValue : Int) : Option Int :=
  (seeF fuel pieces attackerColor attackerValue).map (fun s => victimValue - s)

/-- A target square attacked by one white pawn and one black pawn: the smallest
position on which the exchange recursion finds an attacker for either side. -/
def bothSidesAttack : List SeePiece := [⟨.WHITE, 100⟩, ⟨.BLACK, 100⟩]

/-! ## History heuristic (`Engine::updateHistoryScore`) -/

/-- The `historyTable[2][64][64]` array. -/
def HTable : Type := Fin 2 → Fin 64 → Fin 64 → Int

/-- Embeds `Engine::updateHistoryScore` (src/engine.cpp:360-381): add `depth²`
to the entry for the cutoff move, and if that entry then exceeds 10000 halve
every entry of the table (C++ `int` division). -/
def updateHistoryScore (t : HTable) (colorIdx : Fin 2) (fromIdx toIdx : Fin 64)
    (depth : Int) : HTable :=
  let bonus := depth * depth
  let t' : HTable := fun c f d =>
    if c = colorIdx ∧ f = fromIdx ∧ d = toIdx then t c f d + bonus else t c f d
  if t' colorIdx fromIdx toIdx > 10000 then (fun c f d => t' c f d / 2) else t'

/-! ## Move scoring (`Engine::getMoveScore`)

The function reads the engine's mutable heuristic state (transposition-table
move, the per-depth PV tables, counter-move table, killer tables, history
table); each such read is passed in as an argument.  The overload
`isPVMove(move, d, ply)` called at src/engine.cpp:416 is declared in
`engine.h`, which is not in `src/`; modelled from the spec (§4.2 band 2) as an
oracle `pvHit d` answering "is this move the retained PV move of depth `d` at
this ply". -/

/-- A board coordinate as in the source's `Position` (row, col).  Modelled
from the spec: `Position` itself lives in `engine.h`; the default-constructed
`Position()` is the invalid sentinel (§7: origin/destination "unset"). -/
structure Pos where
  row : Int
  col : Int
deriving DecidableEq, Repr

/-- Modelled from the spec: `Position::isValid()` holds exactly for on-board
coordinates; the sentinel is off-board. -/
def Pos.isValid (p : Pos) : Bool :=
  decide (0 ≤ p.row ∧ p.row ≤ 7 ∧ 0 ≤ p.col ∧ p.col ≤ 7)

/-- The invalid sentinel `Position()`. -/
def invalidPos : Pos := ⟨-1, -1⟩

/-- A move, with origin and destination squares (`Move::from`, `Move::to`). -/
structure MoveM where
  src : Pos
  dst : Pos
deriving DecidableEq, Repr

/-- The null move `Move(Position(), Position())`. -/
def invalidMove : MoveM := ⟨invalidPos, invalidPos⟩

/-- The coordinate-wise move comparison the source writes out at every move
lookup (`from.row == .. && from.col == .. && to.row == .. && to.col == ..`). -/
def sameSquares (a b : MoveM) : Bool :=
  a.src.row == b.src.row && a.src.col == b.src.col &&
    a.dst.row == b.dst.row && a.dst.col == b.dst.col

/-- The PV-band scan `for (int d = depth; d >= 1; d--)` of
src/engine.cpp:415-419: the deepest retained depth whose PV move at this ply
equals the scored move. -/
def pvScanHit (pvHit : Nat → Bool) : Nat → Option Nat
  | 0 => none
  | d + 1 => if pvHit (d + 1) then some (d + 1) else pvScanHit pvHit d

/-- Embeds `Engine::getMoveScore` (src/engine.cpp:404-463).  Board lookups for
the scored move are passed as `attacker` (`getPieceAt(move.from)`), `victim`
(`getPieceAt(move.to)`) and `seeVal` (`seeCapture(board, move)`); the mutable
heuristic state is passed as `ttMove`, `pvHit`/`depth`, `lastMoveValid` and
`counter` (`getCounterMove(lastMove)`), `killer0`/`killer1`, and `hist`
(`getHistoryScore(move, sideToMove)`). -/
def getMoveScoreM (move ttMove : MoveM) (pvHit : Nat → Bool) (depth : Nat)
    (attacker : PieceType) (victim : Option PieceType) (seeVal : Int)
    (lastMoveValid : Bool) (counter : MoveM) (killer0 killer1 : MoveM)
    (hist : Int) : Int :=
  if ttMove.src.isValid ∧ ttMove.dst.isValid ∧ sameSquares ttMove move then
    10000000
  else
    match pvScanHit pvHit depth with
    | some d => 9000000 + (d : Int) * 1000
    | none =>
      match victim with
      | some victimType =>
        if seeVal > 0 then 4000000 + seeVal
        else 3000000 + getMVVLVAScore attacker victimType
      | none =>
        if lastMoveValid ∧ counter.src.isValid ∧ counter.dst.isValid ∧
            sameSquares counter move then 2500000
        else if sameSquares killer0 move then 2000100
        else if sameSquares killer1 move then 2000000
        else hist

/-! ## Game-tree model for the recursive searches

`pvSearch` and `quiescenceSearch` consult the board only through the external
collaborators' interface.  A `GTree` node records exactly those answers: the
`isCheckmate()`/`isStalemate()`/`isInCheck()` flags, the material +
piece-square aggregate `wmb` (whiteScore − blackScore, the value
`evaluatePosition` computes before its side-to-move adjustment — the full
square loop is embedded separately as `evaluatePosition` below), and the legal
moves, each with the per-move collaborator answers (`getPieceAt(move.to)`,
en-passant test, `seeCapture`, `move.to == lastMove.to`, the pawn-push test)
and its successor position.  `makeMove` is modelled as always succeeding.

The side to move is determined by the `maximizingPlayer` flag exactly as the
driver sets it (`maximizingPlayer = side == Color::WHITE`,
src/engine.cpp:129); recursion flips both in lockstep.

The mutable ordering-heuristic state (killer/counter/history tables, per-depth
PV tables, transposition table) is modelled in its initial state: the
transposition table fresh and all positions distinct, so every probe misses
(the probe of src/engine.cpp:692 returns false); the PV tables empty, so the
PV bands of `getMoveScore` never fire; the killer/counter/history tables at
their zero-initialized values.  These tables influence only move ordering;
every universal theorem below is proved for an arbitrary ordered move list,
and every concrete tree used below either never updates the tables before a
node is ordered or orders singleton move lists, so the model agrees with the
mutated-table run on those trees. -/

/-- The per-move answers of the board collaborator, for one legal move. -/
structure MInfo where
  /-- `board.getPieceAt(move.to)`: the captured piece's type, if any. -/
  victim : Option PieceType
  /-- `board.getPieceAt(move.from)->getType()`: the moving piece's type. -/
  attacker : PieceType
  /-- whether the move is a pawn move to the en-passant target square. -/
  isEP : Bool
  /-- `seeCapture(board, move)`: the static-exchange value of the move. -/
  seeVal : Int
  /-- `lastMove.to.isValid() && move.to == lastMove.to`: the recapture test. -/
  recapture : Bool
  /-- the pawn-push-to-7th-rank test of src/engine.cpp:792-798. -/
  pawn7 : Bool
deriving DecidableEq, Repr

/-- A game tree: the board-collaborator flags and evaluation aggregate at this
position, and the legal moves with their successor positions. -/
inductive GTree where
  | node (checkmate stalemate inCheck : Bool) (wmb : Int)
      (children : List (MInfo × GTree))

/-- The result of `evaluatePosition` on a `GTree` node (src/engine.cpp:1266-1284,
with the square loop's aggregate `whiteScore - blackScore` carried as `wmb`):
checkmate is scored `∓100000` by side to move, stalemate 0, and otherwise the
aggregate is negated for Black to move.  `stmWhite` is the `maximizingPlayer`
flag, which the driver ties to the side to move. -/
def nodeEval (t : GTree) (stmWhite : Bool) : Int :=
  match t with
  | .node cm sm _ wmb _ =>
    if cm then (if stmWhite then -100000 else 100000)
    else if sm then 0
    else if stmWhite then wmb else -wmb

/-- Insert into a score-descending list, placing `x` before entries of equal
score.  Used under `List.foldr`, which inserts right-to-left, this keeps
equal-score entries in their original order. -/
def insertDesc {α : Type} (x : Int × α) : List (Int × α) → List (Int × α)
  | [] => [x]
  | y :: ys => if x.1 ≥ y.1 then x :: y :: ys else y :: insertDesc x ys

/-- Sort a scored move list by descending score, stably (see `insertDesc`): a
deterministic refinement of the unstable, otherwise unspecified `std::sort`
with the comparator `a.first > b.first` used at src/engine.cpp:531 and 761.
Every concrete tree below whose result could depend on the order of
equal-score moves is built so that it does not (identical tied subtrees, or
scores made strictly distinct), so the theorems hold for the real program
under any tie-breaking. -/
def sortDesc {α : Type} (l : List (Int × α)) : List (Int × α) :=
  l.foldr insertDesc []

/-- `INT_MIN`, the initial `maxEval = std::numeric_limits<int>::min()`. -/
def INT_MIN : Int := -2147483648

/-- `INT_MAX`, the initial `minEval = std::numeric_limits<int>::max()`. -/
def INT_MAX : Int := 2147483647

/-! ### Quiescence search

Embeds the reachable `Engine::quiescenceSearch` (src/engine.cpp:465-566).
The block at lines 568-677 sits outside any function body, refers to the
undefined `qMoves`, `inCheck` and `qDepth`, and cannot compile; it is not part
of the embedded function.  The result carries the value together with the
number of `nodesSearched++` increments the call performs, so that pruning
claims about which positions are visited can be stated. -/

/-- The capture filter and scoring loop of src/engine.cpp:490-528 for one legal
move: `none` when the move is not put on the quiescence move list (not a
capture, or a negative-SEE capture skipped at `ply > 2` when not in check),
otherwise its ordering score. -/
def qMoveScore (ply : Nat) (inCheck : Bool) (m : MInfo) : Option Int :=
  match m.victim with
  | some victimType =>
    let ms := getMVVLVAScore m.attacker victimType
    if m.seeVal < 0 then
      if ply > 2 ∧ ¬inCheck then none else some (ms + m.seeVal)
    else some ms
  | none =>
    if m.isEP then some (getMVVLVAScore m.attacker .PAWN) else none

/-- The make/search/unmake loop of src/engine.cpp:537-563: `f` performs the
recursive call on a successor (returning its value and node count), `beta` is
fixed through the loop, `alpha` is raised by improvements, and a child score
reaching `beta` returns `beta` at once. -/
def qLoop (f : GTree → Int → Int → Option (Int × Nat)) (beta : Int) :
    List (MInfo × GTree) → Int → Nat → Option (Int × Nat)
  | [], alpha, nodes => some (alpha, nodes)
  | (_, c) :: rest, alpha, nodes =>
    match f c (-beta) (-alpha) with
    | none => none
    | some (v, n) =>
      let score := -v
      if score ≥ beta then some (beta, nodes + n)
      else qLoop f beta rest (if score > alpha then score else alpha) (nodes + n)

/-- Embeds `Engine::quiescenceSearch` (src/engine.cpp:465-566) on the game-tree
model, with explicit recursion fuel (`none` = fuel exhausted; the C++ function
has no termination argument of its own either, it relies on the `MAX_PLY`
ceiling).  Returns the value and the number of nodes searched. -/
def quiesceF (maxPly : Nat) : Nat → GTree → Int → Int → Bool → Nat → Option (Int × Nat)
  | 0, _, _, _, _, _ => none
  | fuel + 1, t, alpha, beta, stmWhite, ply =>
    if ply ≥ maxPly - 1 then some (nodeEval t stmWhite, 1)
    else
      let standPat := nodeEval t stmWhite
      if standPat ≥ beta then some (beta, 1)
      else
        let alpha1 := if standPat > alpha then standPat else alpha
        match t with
        | .node _ _ inCheck _ children =>
          let scored := children.filterMap
            (fun mc => (qMoveScore ply inCheck mc.1).map (fun s => (s, mc)))
          let ordered := (sortDesc scored).map (·.2)
          qLoop (fun c a b => quiesceF maxPly fuel c a b (!stmWhite) (ply + 1))
            beta ordered alpha1 1

/-! ### Principal variation search

Embeds `Engine::pvSearch` (src/engine.cpp:679-986) on the game-tree model.
The returned pair is the value together with the `NodeType` passed to
`transpositionTable.store` after the move loop (`none` on the paths that
return before reaching the store).  The PV out-parameter and the
killer/counter/history updates on cutoffs are not modelled (they do not feed
back into any value computed here; see the heading comment of this section). -/

/-- The fresh-state `getMoveScore` used when ordering moves at a node
(src/engine.cpp:743): the probe missed so `ttMove` is the null move, the PV
tables are empty, and the counter/killer/history tables are zero-initialized.
The move's own coordinates are only ever compared against null entries, so a
fixed valid placeholder is passed for them. -/
def moveScoreFresh (m : MInfo) : Int :=
  getMoveScoreM ⟨⟨0, 0⟩, ⟨0, 1⟩⟩ invalidMove (fun _ => false) 0
    m.attacker m.victim m.seeVal false invalidMove invalidMove invalidMove 0

/-- The move scoring and early bad-capture pruning loop of
src/engine.cpp:741-758: `none` when the move is dropped (`depth ≥ 3`, a
capture, and `seeCapture < -PAWN_VALUE * 2`), otherwise its ordering score. -/
def preFilterScore (depth : Int) (m : MInfo) : Option Int :=
  if depth ≥ 3 ∧ m.victim.isSome ∧ m.seeVal < -(PAWN_VALUE * 2) then none
  else some (moveScoreFresh m)

/-- The per-move extension computation shared by both branches of the move
loop (src/engine.cpp:786-798 and 895-909): the node extension, raised to 1 on
a recapture and on a pawn push to the 7th rank. -/
def moveExtOf (ext : Int) (m : MInfo) : Int :=
  let e1 := if m.recapture then max ext 1 else ext
  if m.pawn7 then max e1 1 else e1

/-- The per-move search of src/engine.cpp:827-840 (and its verbatim mirror at
925-938): a null-window probe once a PV candidate exists, re-searched with the
full window when the probe lands strictly inside `(alpha, beta)`, the child's
result negated. -/
def pvChildEval (f : GTree → Int → Int → Int → Option Int) (childDepth alpha beta : Int)
    (foundPV : Bool) (c : GTree) : Option Int :=
  if foundPV then
    match f c childDepth (-alpha - 1) (-alpha) with
    | none => none
    | some e0 =>
      let e1 := -e0
      if e1 > alpha ∧ e1 < beta then
        (f c childDepth (-beta) (-alpha)).map (fun x => -x)
      else some e1
  else (f c childDepth (-beta) (-alpha)).map (fun x => -x)

/-- The maximizing move loop of src/engine.cpp:776-878.  `f` performs the
recursive call (child tree, child depth, child alpha, child beta); `beta` is
fixed in this branch (only `alpha` is updated); the state is the move index
`i`, the current `alpha`, `maxEval`, and `foundPV`.  Returns `maxEval` and
whether the loop exited through the fail-high `break`.  The locals `_dAdj`
and `_newDepth` reproduce src/engine.cpp:800-811: the source computes them and
then searches the child at `depth - 1 + moveExtension` regardless. -/
def pvLoopMax (f : GTree → Int → Int → Int → Option Int) (ext depth beta : Int) :
    List (MInfo × GTree) → Nat → Int → Int → Bool → Option (Int × Bool)
  | [], _, _, maxEval, _ => some (maxEval, false)
  | (m, c) :: rest, i, alpha, maxEval, foundPV =>
    let moveExt := moveExtOf ext m
    let _dAdj := if ¬foundPV ∧ 0 < i then
        getDepthAdjustment false m.victim.isSome m.seeVal i else 0
    let _newDepth := max 0 (depth - 1 + moveExt + _dAdj)
    match pvChildEval f (depth - 1 + moveExt) alpha beta foundPV c with
    | none => none
    | some ev =>
      let maxEval' := if ev > maxEval then ev else maxEval
      let foundPV' := if ev > maxEval then true else foundPV
      let alpha' := max alpha ev
      if beta ≤ alpha' then some (maxEval', true)
      else pvLoopMax f ext depth beta rest (i + 1) alpha' maxEval' foundPV'

/-- The minimizing move loop of src/engine.cpp:891-976.  `alpha` is fixed in
this branch (only `beta` is updated); the state is the current `beta`,
`minEval`, and `foundPV`.  Returns `minEval`, the final (shrunk) `beta` — the
value the transposition-store classification then compares against — and
whether the loop exited through the fail-low `break`.  This branch computes no
depth adjustment, exactly as in the source. -/
def pvLoopMin (f : GTree → Int → Int → Int → Option Int) (ext depth alpha : Int) :
    List (MInfo × GTree) → Int → Int → Bool → Option (Int × Int × Bool)
  | [], beta, minEval, _ => some (minEval, beta, false)
  | (m, c) :: rest, beta, minEval, foundPV =>
    let moveExt := moveExtOf ext m
    match pvChildEval f (depth - 1 + moveExt) alpha beta foundPV c with
    | none => none
    | some ev =>
      let minEval' := if ev < minEval then ev else minEval
      let foundPV' := if ev < minEval then true else foundPV
      let beta' := min beta ev
      if beta' ≤ alpha then some (minEval', beta', true)
      else pvLoopMin f ext depth alpha rest beta' minEval' foundPV'

/-- Embeds `Engine::pvSearch` (src/engine.cpp:679-986) on the game-tree model,
with explicit recursion fuel (the extension scheme lets `depth` survive a
recursion step, so depth is not a termination measure — the C++ relies on the
`MAX_PLY` ceiling).  Returns the value and the `NodeType` stored in the
transposition table (`none` when the call returns before the store). -/
def pvSearchF (maxPly : Nat) :
    Nat → GTree → Int → Int → Int → Bool → Nat → Option (Int × Option NodeType)
  | 0, _, _, _, _, _, _ => none
  | fuel + 1, .node cm sm ic wmb cs, depth, alpha, beta, maximizing, ply =>
    let t := GTree.node cm sm ic wmb cs
    if ply ≥ maxPly - 1 then some (nodeEval t maximizing, none)
    else if depth ≤ 0 then
      (quiesceF maxPly fuel t alpha beta maximizing ply).map (fun p => (p.1, none))
    else if cm ∨ sm then some (nodeEval t maximizing, none)
    else if cs.isEmpty then
      some ((if ic then (if maximizing then -100000 + (ply : Int) else 100000 - (ply : Int))
             else 0), none)
    else
      let ext0 : Int := if ic then 1 else 0
      let ext : Int := if cs.length = 1 ∧ depth ≥ 2 then max ext0 1 else ext0
      let scored := cs.filterMap
        (fun mc => (preFilterScore depth mc.1).map (fun s => (s, mc)))
      let ordered := (sortDesc scored).map (·.2)
      let originalAlpha := alpha
      if maximizing then
        match pvLoopMax
            (fun c d a b => (pvSearchF maxPly fuel c d a b false (ply + 1)).map (·.1))
            ext depth beta ordered 0 alpha INT_MIN false with
        | none => none
        | some (maxEval, broke) =>
          let ty := if maxEval > originalAlpha ∧ maxEval < beta then NodeType.EXACT
                    else if broke then NodeType.BETA else NodeType.ALPHA
          some (maxEval, some ty)
      else
        match pvLoopMin
            (fun c d a b => (pvSearchF maxPly fuel c d a b true (ply + 1)).map (·.1))
            ext depth alpha ordered beta INT_MAX false with
        | none => none
        | some (minEval, betaF, _) =>
          let ty := if minEval > originalAlpha ∧ minEval < betaF then NodeType.EXACT
                    else NodeType.ALPHA
          some (minEval, some ty)

/-- Modelled from the spec (§8, "Alpha-beta equivalence", and §4.6): a
full-width, unpruned minimax search of the same tree to the same depth, scored
from the maximizing player's (White's) perspective, with the same terminal
scores the engine uses and the static evaluation (the quiescence stand-pat) at
depth 0.  This is the spec-side definition that claim C1 compares `pvSearch`
against. -/
def minimaxW : Nat → GTree → Bool → Int
  | 0, t, stmWhite =>
    let e := nodeEval t stmWhite
    if stmWhite then e else -e
  | d + 1, .node cm sm ic wmb cs, stmWhite =>
    let t := GTree.node cm sm ic wmb cs
    if cm ∨ sm ∨ cs.isEmpty then
      let e := nodeEval t stmWhite
      if stmWhite then e else -e
    else if stmWhite then
      cs.foldl (fun acc mc => max acc (minimaxW d mc.2 false)) INT_MIN
    else
      cs.foldl (fun acc mc => min acc (minimaxW d mc.2 true)) INT_MAX

/-! ## Static evaluation (`Engine::evaluatePosition`, src/engine.cpp:1193-1315)

The board is abstracted to the lookups the function performs:
`getPieceAt(Position(row, col))` for `row, col ∈ 0..7`, `getSideToMove()`,
`isCheckmate()`, `isStalemate()`.  The two `for` loops over the 64 squares are
written as sums over `Finset.range 8`. -/

/-- `Engine::pawnTable` (src/engine.cpp:9-18). -/
def pawnTable : List Int :=
  [0,  0,  0,  0,  0,  0,  0,  0,
   50, 50, 50, 50, 50, 50, 50, 50,
   10, 10, 20, 30, 30, 20, 10, 10,
   5,  5, 10, 25, 25, 10,  5,  5,
   0,  0,  0, 20, 20,  0,  0,  0,
   5, -5, -10, 0,  0, -10, -5, 5,
   5, 10, 10, -20, -20, 10, 10, 5,
   0,  0,  0,  0,  0,  0,  0,  0]

/-- `Engine::knightTable` (src/engine.cpp:20-29). -/
def knightTable : List Int :=
  [-50, -40, -30, -30, -30, -30, -40, -50,
   -40, -20, 0, 0, 0, 0, -20, -40,
   -30, 0, 10, 15, 15, 10, 0, -30,
   -30, 5, 15, 20, 20, 15, 5, -30,
   -30, 0, 15, 20, 20, 15, 0, -30,
   -30, 5, 10, 15, 15, 10, 5, -30,
   -40, -20, 0, 5, 5, 0, -20, -40,
   -50, -40, -30, -30, -30, -30, -40, -50]

/-- `Engine::bishopTable` (src/engine.cpp:31-40). -/
def bishopTable : List Int :=
  [-20, -10, -10, -10, -10, -10, -10, -20,
   -10, 0, 0, 0, 0, 0, 0, -10,
   -10, 0, 10, 10, 10, 10, 0, -10,
   -10, 5, 5, 10, 10, 5, 5, -10,
   -10, 0, 5, 10, 10, 5, 0, -10,
   -10, 5, 5, 5, 5, 5, 5, -10,
   -10, 0, 5, 0, 0, 5, 0, -10,
   -20, -10, -10, -10, -10, -10, -10, -20]

/-- `Engine::rookTable` (src/engine.cpp:42-51). -/
def rookTable : List Int :=
  [0, 0, 0, 0, 0, 0, 0, 0,
   5, 10, 10, 10, 10, 10, 10, 5,
   -5, 0, 0, 0, 0, 0, 0, -5,
   -5, 0, 0, 0, 0, 0, 0, -5,
   -5, 0, 0, 0, 0, 0, 0, -5,
   -5, 0, 0, 0, 0, 0, 0, -5,
   -5, 0, 0, 0, 0, 0, 0, -5,
   0, 0, 0, 5, 5, 0, 0, 0]

/-- `Engine::queenTable` (src/engine.cpp:53-62). -/
def queenTable : List Int :=
  [-20, -10, -10, -5, -5, -10, -10, -20,
   -10, 0, 0, 0, 0, 0, 0, -10,
   -10, 0, 5, 5, 5, 5, 0, -10,
   -5, 0, 5, 5, 5, 5, 0, -5,
   0, 0, 5, 5, 5, 5, 0, -5,
   -10, 5, 5, 5, 5, 5, 0, -10,
   -10, 0, 5, 0, 0, 0, 0, -10,
   -20, -10, -10, -5, -5, -10, -10, -20]

/-- `Engine::kingMiddleGameTable` (src/engine.cpp:64-73). -/
def kingMiddleGameTable : List Int :=
  [-30, -40, -40, -50, -50, -40, -40, -30,
   -30, -40, -40, -50, -50, -40, -40, -30,
   -30, -40, -40, -50, -50, -40, -40, -30,
   -30, -40, -40, -50, -50, -40, -40, -30,
   -20, -30, -30, -40, -40, -30, -30, -20,
   -10, -20, -20, -20, -20, -20, -20, -10,
   20, 20, 0, 0, 0, 0, 20, 20,
   20, 30, 10, 0, 0, 10, 30, 20]

/-- `Engine::kingEndGameTable` (src/engine.cpp:75-84). -/
def kingEndGameTable : List Int :=
  [-50, -40, -30, -20, -20, -30, -40, -50,
   -30, -20, -10, 0, 0, -10, -20, -30,
   -30, -10, 20, 30, 30, 20, -10, -30,
   -30, -10, 30, 40, 40, 30, -10, -30,
   -30, -10, 30, 40, 40, 30, -10, -30,
   -30, -10, 20, 30, 30, 20, -10, -30,
   -30, -30, 0, 0, 0, 0, -30, -30,
   -50, -30, -30, -30, -30, -30, -30, -50]

/-- Piece-square-table lookup by flat index. -/
def pstAt (table : List Int) (i : Nat) : Int := table.getD i 0

/-- The piece-square table the `switch` of src/engine.cpp:1218-1255 selects for
a piece type, with the endgame flag choosing the king table. -/
def tableFor : PieceType → Bool → List Int
  | .PAWN, _ => pawnTable
  | .KNIGHT, _ => knightTable
  | .BISHOP, _ => bishopTable
  | .ROOK, _ => rookTable
  | .QUEEN, _ => queenTable
  | .KING, true => kingEndGameTable
  | .KING, false => kingMiddleGameTable

/-- A position as `evaluatePosition` and `isEndgame` see it: the piece on each
square, the side to move, and the board collaborator's
checkmate/stalemate answers. -/
structure EvalBoard where
  pieceAt : Nat → Nat → Option (PieceType × Color)
  sideToMove : Color
  checkmate : Bool
  stalemate : Bool

/-- One square's contribution to `col`'s score in the loop of
src/engine.cpp:1199-1264: piece value plus the piece-square entry at
`tableIndex = row*8+col` for a white piece and `blackTableIndex =
(7-row)*8+col` for a black piece; squares without a piece of color `col`
contribute 0. -/
def squareScore (b : EvalBoard) (endgamePhase : Bool) (r c : Nat) (col : Color) : Int :=
  match b.pieceAt r c with
  | none => 0
  | some (pt, pc) =>
    if pc = col then
      let idx := if pc = Color.WHITE then r * 8 + c else (7 - r) * 8 + c
      getPieceValue pt + pstAt (tableFor pt endgamePhase) idx
    else 0

/-- The non-king, non-pawn piece count of `Engine::isEndgame`
(src/engine.cpp:1287-1315). -/
def nonKPCount (b : EvalBoard) : Nat :=
  ∑ r in Finset.range 8, ∑ c in Finset.range 8,
    (match b.pieceAt r c with
     | some (pt, _) => if pt ≠ PieceType.KING ∧ pt ≠ PieceType.PAWN then 1 else 0
     | none => 0)

/-- The queen-presence flag of `Engine::isEndgame` for one color. -/
def queenPresent (b : EvalBoard) (col : Color) : Bool :=
  (List.range 8).any fun r => (List.range 8).any fun c =>
    decide (b.pieceAt r c = some (PieceType.QUEEN, col))

/-- Embeds `Engine::isEndgame` (src/engine.cpp:1287-1315): both queens absent,
or at most 6 non-king, non-pawn pieces. -/
def isEndgame (b : EvalBoard) : Bool :=
  (!queenPresent b .WHITE && !queenPresent b .BLACK) || decide (nonKPCount b ≤ 6)

/-- One side's total of the square loop of src/engine.cpp:1199-1264. -/
def colorScore (b : EvalBoard) (endgamePhase : Bool) (col : Color) : Int :=
  ∑ r in Finset.range 8, ∑ c in Finset.range 8, squareScore b endgamePhase r c col

/-- Embeds `Engine::evaluatePosition` (src/engine.cpp:1193-1285): sum piece and
piece-square values per side over the 64 squares, override with `±100000` on
checkmate (keyed to the side to move) and 0 on stalemate, and otherwise return
`whiteScore − blackScore` negated for Black to move. -/
def evaluatePosition (b : EvalBoard) : Int :=
  let endgamePhase := isEndgame b
  let whiteScore := colorScore b endgamePhase .WHITE
  let blackScore := colorScore b endgamePhase .BLACK
  if b.checkmate then (if b.sideToMove = Color.WHITE then -100000 else 100000)
  else if b.stalemate then 0
  else
    let score := whiteScore - blackScore
    if b.sideToMove = Color.WHITE then score else -score

/-- The color-flipped mirror of a position, as claim C9 describes it: piece
colors swapped, board mirrored top-to-bottom (row `r` ↦ row `7 − r`), side to
move swapped.  Color-flipping preserves checkmate/stalemate, so the
collaborator flags carry over. -/
def mirror (b : EvalBoard) : EvalBoard where
  pieceAt := fun r c => (b.pieceAt (7 - r) c).map (fun p => (p.1, p.2.other))
  sideToMove := b.sideToMove.other
  checkmate := b.checkmate
  stalemate := b.stalemate

/-! ## Concrete positions used by the claim theorems

Through `GTree`, a concrete position is a concrete tree of board-collaborator
answers.  All the trees below use quiet moves (no captures, no checks, no
recaptures, no pawn pushes) except where a claim needs otherwise, so no
extension, no capture pre-filter and no heuristic-table update is involved,
and all moves score 0 so the stable sort keeps the given move order. -/

/-- A quiet move: no capture, not en passant, not a recapture or pawn push. -/
def quietM : MInfo :=
  { victim := none, attacker := .PAWN, isEP := false, seeVal := 0,
    recapture := false, pawn7 := false }

/-- A position with no moves of interest and evaluation aggregate `w`. -/
def leafN (w : Int) : GTree := .node false false false w []

/-- A quiet internal position: no terminal flags, not in check. -/
def qnode (w : Int) (cs : List (MInfo × GTree)) : GTree := .node false false false w cs

/-- Claim C1's position: two root moves; the first reaches a node whose two
replies stand at 0 and 100 (from the perspective of the player to move there,
the root player), the second a node whose single reply stands at −50.
Minimax: the opponent answers the first move with 0, the second with −50;
the root's best is 0. -/
def t1 : GTree :=
  qnode 0
    [(quietM, qnode 0 [(quietM, leafN 0), (quietM, leafN 100)]),
     (quietM, qnode 0 [(quietM, leafN (-50))])]

/-- A position in which the side to move is checkmated (so also in check). -/
def cmNode : GTree := .node true false true 0 []

/-- Claim C2's root: the first move mates the opponent (its successor is a
checkmated position), the second is quiet with balanced material. -/
def mateRoot : GTree :=
  qnode 0 [(quietM, GTree.node true false true 0 []), (quietM, leafN 0)]

/-- An opponent reply-node with a single quiet continuation standing at `w`. -/
def dNode (w : Int) : GTree := qnode 0 [(quietM, leafN w)]

/-- A winning capture (pawn takes pawn, SEE +100): scores
`4,000,000 + 100` in `getMoveScore`, strictly above every quiet move's band. -/
def winCapM : MInfo :=
  { victim := some .PAWN, attacker := .PAWN, isEP := false, seeVal := 100,
    recapture := false, pawn7 := false }

/-- Claim C3's position: the first three root moves are winning captures
(score 4,000,100 — they sort strictly first under any tie-breaking of
`std::sort`, and their identical subtrees make their mutual order irrelevant),
so the quiet fourth move (score 0) is at move index 3, the claim's first
reduced index, under every admissible ordering.  It leads to a node `c` whose
own stand-pat aggregate is −40 but whose single quiet continuation stands at
300.  A depth-0 (quiescence) search of `c` sees no captures and so depends
only on `c`'s stand-pat. -/
def t3a : GTree :=
  qnode 0
    [(winCapM, dNode 0), (winCapM, dNode 0), (winCapM, dNode 0),
     (quietM, GTree.node false false false (-40) [(quietM, leafN 300)])]

/-- Claim C3's comparison position: identical to `t3a` except in the one value
only a depth-1 search of move index 3's successor can see (its continuation
stands at 0 instead of 300). -/
def t3b : GTree :=
  qnode 0
    [(winCapM, dNode 0), (winCapM, dNode 0), (winCapM, dNode 0),
     (quietM, GTree.node false false false (-40) [(quietM, leafN 0)])]

/-- Claim C5's capture: a queen takes a pawn, SEE value 0 (an even trade). -/
def capM : MInfo :=
  { victim := some .PAWN, attacker := .QUEEN, isEP := false, seeVal := 0,
    recapture := false, pawn7 := false }

/-- Claim C5's position: balanced stand-pat, not in check, one capture
available whose best case (pawn value, no promotion) plus the 200-centipawn
margin cannot reach the alpha it is searched under. -/
def qt : GTree := .node false false false 0 [(capM, leafN 0)]

/-- A one-move position whose search score (3) falls strictly inside the
window (0, 10): a maximizing EXACT store. -/
def tmax : GTree := qnode 0 [(quietM, leafN 3)]

/-- A one-move position whose search score (5) falls strictly inside the
window (0, 10) with the minimizing player to move. -/
def cmin : GTree := qnode 0 [(quietM, leafN (-5))]

/-- Claim C8's history table: entries 3 and 2 (distinct, nonzero, ratio 1.5)
and an entry at 10000 about to be incremented past the ceiling. -/
def histSample : HTable := fun c f d =>
  if c = 0 ∧ f = 1 ∧ d = 1 then 3
  else if c = 0 ∧ f = 2 ∧ d = 2 then 2
  else if c = 0 ∧ f = 3 ∧ d = 3 then 1
  else if c = 1 ∧ f = 0 ∧ d = 0 then 10000
  else 0

/-- Claim C9's position: kings on e1/e8, a white queen on d1, White to move,
not checkmate or stalemate. -/
def b9 : EvalBoard where
  pieceAt := fun r c =>
    if r = 7 ∧ c = 4 then some (.KING, .WHITE)
    else if r = 0 ∧ c = 4 then some (.KING, .BLACK)
    else if r = 7 ∧ c = 3 then some (.QUEEN, .WHITE)
    else none
  sideToMove := .WHITE
  checkmate := false
  stalemate := false

/-! ## Claim theorems -/

/-- Claim C1: the claim states that for every position and depth ≥ 1, `pvSearch`
with a full window returns the full-width, unpruned minimax score.  This fails
on the code: on the position `t1` at depth 2 with the driver's wide window,
`pvSearch` returns 100 while the minimax value is 0.  The minimizing branch
negates the child's result (negamax style) and then still explicitly
minimizes, so the opponent node selects the reply that is best for the
maximizer (`min` over negated mover-perspective values), and the root receives
`max-max` instead of `max-min`. -/
theorem claim_C1_pvs_differs_from_minimax :
    pvSearchF 64 20 t1 2 (-1000000) 1000000 true 0 = some (100, some NodeType.EXACT) ∧
    minimaxW 2 t1 true = 0 ∧ (100 : Int) ≠ 0 := by
  refine ⟨by decide, by decide, by decide⟩

/-- Claim C2: the claim states that a checkmated side to move at ply `p`
scores `−100000 + p` (maximizing) or `100000 − p` (minimizing), and that a
depth-1 search of a mate-in-one returns the mating move with score
`100000 − 1`.  On the code, the early terminal check
(src/engine.cpp:717, `isCheckmate() || isStalemate()` → `evaluatePosition`)
fires before the ply-adjusting branch at src/engine.cpp:725-733, which is
unreachable, so a checkmate node at depth 1, ply 2 scores a flat −100000; and
at the depth-1 root `mateRoot` the mating move's successor is scored through
quiescence as +100000 for the *mated* side, which the root negates to
−100000, so the root prefers the quiet move and returns 0, not `100000 − 1`. -/
theorem claim_C2_mate_score_unadjusted :
    pvSearchF 64 10 cmNode 1 (-1000000) 1000000 true 2 = some (-100000, none) ∧
    (-100000 : Int) ≠ -100000 + 2 ∧
    pvSearchF 64 10 mateRoot 1 (-1000000) 1000000 true 0 = some (0, some NodeType.EXACT) ∧
    (0 : Int) ≠ 100000 - 1 := by
  refine ⟨by decide, by decide, by decide, by decide⟩

/-- Claim C3: the claim states that the late-move reduction computed by
`getDepthAdjustment` is applied to the depth of the recursive child search.
The function itself returns the claimed table (−1 at index 3, −2 at 6,
−2 (capped) at 12 — first three conjuncts), but `pvSearch` stores its result
in the unused local `newDepth` (src/engine.cpp:808-811) and recurses at
`depth - 1 + moveExtension` (src/engine.cpp:830/835/839).  Witnessed on the
code: in `t3a`/`t3b` the three winning captures score 4,000,100 and the quiet
move 0 (fourth and fifth conjuncts), so the quiet move is at move index 3 —
the claim's first reduced index — under every tie-breaking of the sort, and
the captures' identical subtrees make their mutual order irrelevant.  `t3a`
and `t3b` agree everywhere a depth-0 (quiescence) search of that move's
successor `c` can look — `c` has no captures, so such a search returns a
clamp of `c`'s stand-pat, equal in both trees — and the first three moves'
subtrees are identical, so under the claimed reduction the two searches would
return equal scores.  Yet the depth-2 results differ (300 vs 0): the index-3
successor was searched at full depth 1, not at the claimed reduced depth 0. -/
theorem claim_C3_reduction_never_applied :
    getDepthAdjustment false false 0 3 = -1 ∧
    getDepthAdjustment false false 0 6 = -2 ∧
    getDepthAdjustment false false 0 12 = -2 ∧
    moveScoreFresh winCapM = 4000100 ∧
    moveScoreFresh quietM = 0 ∧
    pvSearchF 64 20 t3a 2 (-1000000) 1000000 true 0 = some (300, some NodeType.EXACT) ∧
    pvSearchF 64 20 t3b 2 (-1000000) 1000000 true 0 = some (0, some NodeType.EXACT) := by
  refine ⟨by decide, by decide, by decide, by decide, by decide, by decide, by decide⟩

/-- Claim C4: the claim states that the `see` recursion always reaches a level
with no attacker of the required color and terminates.  On the code, the
simulated captures are never removed from the (const) board, so on any board
where both colors attack the target square — here one white and one black
pawn — every level finds an attacker and the side-swapping recursion repeats
forever: no amount of fuel produces a result. -/
theorem claim_C4_see_no_termination (n : Nat) (side : Color) (captureValue : Int) :
    seeF n bothSidesAttack side captureValue = none := by
  induction n generalizing side captureValue with
  | zero => rfl
  | succ n ih =>
    cases side
    · rw [seeF, show leastValuableAttacker bothSidesAttack Color.WHITE = some 100 from rfl]
      simp [Color.other, ih]
    · rw [seeF, show leastValuableAttacker bothSidesAttack Color.BLACK = some 100 from rfl]
      simp [Color.other, ih]

/-- Claim C5: the claim states that quiescence search skips a capture when
`standPat + captureValue + promotionBonus + 200 ≤ alpha` (outside check).  The
reachable `quiescenceSearch` (src/engine.cpp:465-566) contains no such test —
delta pruning appears only in the uncompilable duplicate block at
src/engine.cpp:568-677.  On `qt` with window (1000, 1001): stand-pat 0, the
even queen-takes-pawn capture's maximum gain `0 + 100 + 0 + 200 = 300 ≤ 1000`
satisfies the claimed skip condition, yet the node count is 2: the capture's
successor was searched. -/
theorem claim_C5_delta_pruning_absent :
    quiesceF 64 10 qt 1000 1001 true 0 = some (1000, 2) ∧
    nodeEval qt true + PAWN_VALUE + 0 + 200 ≤ 1000 := by
  refine ⟨by decide, by decide⟩

/-- Claim C6, counterexample: the claim states a non-TT, non-PV capture is
scored `4,000,000 + SEE` whenever SEE is non-negative, and in particular a
capture with SEE exactly 0 lands in the 4,000,000 band.  On the code
(src/engine.cpp:430, `if (seeScore > 0)`), a queen-takes-pawn capture with SEE
exactly 0 scores `3,000,000 + MVV-LVA = 3000101`, not `4,000,000 + 0`. -/
theorem claim_C6_counterexample :
    getMoveScoreM ⟨⟨0, 0⟩, ⟨0, 1⟩⟩ invalidMove (fun _ => false) 5 .QUEEN (some .PAWN) 0
        false invalidMove invalidMove invalidMove 0 = 3000101 ∧
    (3000101 : Int) ≠ 4000000 + 0 := by
  refine ⟨by decide, by decide⟩

/-- Claim C6 as amended: for a capture matching neither the
transposition-table move nor any retained PV move, `getMoveScore` returns
`4,000,000 + SEE` when the SEE value is strictly positive and
`3,000,000 + MVV-LVA` otherwise; in particular a capture with SEE exactly 0 is
scored in the 3,000,000 band. -/
theorem claim_C6_capture_bands (move ttMove : MoveM) (pvHit : Nat → Bool) (depth : Nat)
    (attacker victimType : PieceType) (seeVal : Int) (lastMoveValid : Bool)
    (counter killer0 killer1 : MoveM) (hist : Int)
    (htt : ¬(ttMove.src.isValid ∧ ttMove.dst.isValid ∧ sameSquares ttMove move))
    (hpv : ∀ d, pvHit d = false) :
    getMoveScoreM move ttMove pvHit depth attacker (some victimType) seeVal
        lastMoveValid counter killer0 killer1 hist =
      (if seeVal > 0 then 4000000 + seeVal
       else 3000000 + getMVVLVAScore attacker victimType) := by
  have hscan : ∀ n, pvScanHit pvHit n = none := by
    intro n
    induction n with
    | zero => rfl
    | succ n ih => simp [pvScanHit, hpv, ih]
  unfold getMoveScoreM
  rw [if_neg htt, hscan]

/-- Witness for `claim_C6_capture_bands` at the concrete even capture. -/
theorem claim_C6_capture_bands_witness :
    getMoveScoreM ⟨⟨0, 0⟩, ⟨0, 1⟩⟩ invalidMove (fun _ => false) 5 .QUEEN (some .PAWN) 0
        false invalidMove invalidMove invalidMove 0 =
      (if (0 : Int) > 0 then 4000000 + 0 else 3000000 + getMVVLVAScore .QUEEN .PAWN) :=
  claim_C6_capture_bands _ _ _ _ _ _ _ _ _ _ _ _ (by decide) (fun _ => rfl)

/-- Claim C8, counterexample: the claim states the global halving preserves
the strict order of any two previously distinct nonzero entries with
ratio > 1.  On the code, entries 3 and 2 (ratio 1.5 > 1) both become 1 after
the halving triggered by an increment pushing a third entry to 10001. -/
theorem claim_C8_counterexample :
    histSample 0 1 1 = 3 ∧ histSample 0 2 2 = 2 ∧
    updateHistoryScore histSample 1 0 0 1 0 1 1 = 1 ∧
    updateHistoryScore histSample 1 0 0 1 0 2 2 = 1 ∧
    ¬((1 : Int) > 1) := by
  refine ⟨by decide, by decide, by decide, by decide, by decide⟩

/-- Claim C8 as amended: when the increment of `updateHistoryScore` pushes the
bumped entry past 10000 and triggers the global halving, any two *other*
entries whose values `a > b ≥ 1` satisfy `a ≥ 2·b` keep their strict order;
for arbitrary distinct entries only the non-strict order survives the integer
division (3 and 2 collapse to 1 = 1). -/
theorem claim_C8_halving_order (t : HTable) (ci : Fin 2) (fi ti : Fin 64) (depth : Int)
    (c1 : Fin 2) (f1 d1 : Fin 64) (c2 : Fin 2) (f2 d2 : Fin 64)
    (h1ne : ¬(c1 = ci ∧ f1 = fi ∧ d1 = ti)) (h2ne : ¬(c2 = ci ∧ f2 = fi ∧ d2 = ti))
    (htrig : t ci fi ti + depth * depth > 10000)
    (hb : 1 ≤ t c2 f2 d2) (hab : 2 * t c2 f2 d2 ≤ t c1 f1 d1) :
    updateHistoryScore t ci fi ti depth c1 f1 d1 >
      updateHistoryScore t ci fi ti depth c2 f2 d2 := by
  unfold updateHistoryScore
  rw [if_pos]
  · simp only [if_neg h1ne, if_neg h2ne]
    omega
  · simpa using htrig

/-- Witness for `claim_C8_halving_order`: entries 2 and 1 of `histSample`
survive its halving in strict order. -/
theorem claim_C8_halving_order_witness :
    updateHistoryScore histSample 1 0 0 101 0 2 2 >
      updateHistoryScore histSample 1 0 0 101 0 3 3 :=
  claim_C8_halving_order histSample 1 0 0 101 0 2 2 0 3 3
    (by decide) (by decide) (by decide) (by decide) (by decide)

/-- Claim C10, counterexample: the claim states every quiescence call with
`alpha < beta` returns a value in `[alpha, beta]`, including the forced return
at the `MAX_PLY` ceiling.  On the code, the ceiling return
(src/engine.cpp:470-471) is the raw static evaluation: at ply 63 with
`MAX_PLY = 64` and window (0, 10), a position standing at 5000 returns 5000,
above beta. -/
theorem claim_C10_counterexample :
    quiesceF 64 5 (leafN 5000) 0 10 true 63 = some (5000, 1) ∧
    ¬((5000 : Int) ≤ 10) := by
  refine ⟨by decide, by decide⟩

/-- The quiescence move loop keeps its running alpha in `[alpha, beta)` and
returns either that alpha or `beta` on a cutoff, whatever the child searches
return. -/
theorem qLoop_bounds (f : GTree → Int → Int → Option (Int × Nat)) (beta : Int)
    (l : List (MInfo × GTree)) :
    ∀ (alpha : Int) (nodes : Nat) (v : Int) (n : Nat),
      alpha < beta → qLoop f beta l alpha nodes = some (v, n) → alpha ≤ v ∧ v ≤ beta := by
  induction l with
  | nil =>
    intro alpha nodes v n hab h
    simp only [qLoop, Option.some.injEq, Prod.mk.injEq] at h
    obtain ⟨rfl, rfl⟩ := h
    omega
  | cons hd rest ih =>
    intro alpha nodes v n hab h
    obtain ⟨m, c⟩ := hd
    simp only [qLoop] at h
    cases hr : f c (-beta) (-alpha) with
    | none => rw [hr] at h; exact absurd h (by simp)
    | some p =>
      obtain ⟨cv, cn⟩ := p
      rw [hr] at h
      simp only at h
      split at h
      · rename_i hge
        simp only [Option.some.injEq, Prod.mk.injEq] at h
        obtain ⟨rfl, rfl⟩ := h
        omega
      · rename_i hge
        have hle : alpha ≤ (if -cv > alpha then -cv else alpha) := by split <;> omega
        have hlt : (if -cv > alpha then -cv else alpha) < beta := by split <;> omega
        have h2 := ih (if -cv > alpha then -cv else alpha) (nodes + cn) v n hlt h
        exact ⟨le_trans hle h2.1, h2.2⟩

/-- Claim C10 as amended: every quiescence call with `alpha < beta` made
*below* the ply ceiling (`ply < MAX_PLY − 1`) returns a value in
`[alpha, beta]`; the call at the ceiling returns the raw static evaluation,
which the claim's bound does not cover (see the counterexample). -/
theorem claim_C10_fail_hard (maxPly fuel : Nat) (t : GTree) (alpha beta : Int)
    (stmWhite : Bool) (ply : Nat) (v : Int) (n : Nat)
    (hply : ply + 1 < maxPly) (hab : alpha < beta)
    (h : quiesceF maxPly fuel t alpha beta stmWhite ply = some (v, n)) :
    alpha ≤ v ∧ v ≤ beta := by
  cases fuel with
  | zero => exact absurd h (by simp [quiesceF])
  | succ fuel =>
    cases t with
    | node cm sm ic wmb cs =>
      simp only [quiesceF] at h
      rw [if_neg (show ¬ply ≥ maxPly - 1 by omega)] at h
      split at h
      · rename_i hsp
        simp only [Option.some.injEq, Prod.mk.injEq] at h
        obtain ⟨rfl, rfl⟩ := h
        omega
      · rename_i hsp
        have hle : alpha ≤
            (if nodeEval (GTree.node cm sm ic wmb cs) stmWhite > alpha then
              nodeEval (GTree.node cm sm ic wmb cs) stmWhite else alpha) := by
          split <;> omega
        have hlt :
            (if nodeEval (GTree.node cm sm ic wmb cs) stmWhite > alpha then
              nodeEval (GTree.node cm sm ic wmb cs) stmWhite else alpha) < beta := by
          split <;> omega
        have h2 := qLoop_bounds _ beta _ _ _ v n hlt h
        exact ⟨le_trans hle h2.1, h2.2⟩

/-- Witness for `claim_C10_fail_hard` at a below-ceiling call. -/
theorem claim_C10_fail_hard_witness : (0 : Int) ≤ 5 ∧ (5 : Int) ≤ 10 :=
  claim_C10_fail_hard 64 2 (leafN 5) 0 10 true 0 5 1 (by decide) (by decide) (by decide)

/-- In the minimizing move loop, once started the running beta never exceeds
the running minEval (beta shrinks by `min` with every value minEval tracks),
so the final minEval is never strictly below the final beta — the comparison
the EXACT classification of src/engine.cpp:979 makes. -/
theorem pvLoopMin_no_exact (f : GTree → Int → Int → Int → Option Int)
    (ext depth alpha : Int) (l : List (MInfo × GTree)) :
    ∀ (beta minEval : Int) (fp : Bool) (m bF : Int) (br : Bool),
      (beta ≤ minEval ∨ (minEval = INT_MAX ∧ beta ≤ INT_MAX)) →
      pvLoopMin f ext depth alpha l beta minEval fp = some (m, bF, br) →
      ¬(m < bF) := by
  induction l with
  | nil =>
    intro beta minEval fp m bF br hinv h
    simp only [pvLoopMin, Option.some.injEq, Prod.mk.injEq] at h
    obtain ⟨rfl, rfl, rfl⟩ := h
    rcases hinv with h1 | ⟨h1, h2⟩ <;> omega
  | cons hd rest ih =>
    intro beta minEval fp m bF br hinv h
    obtain ⟨mi, c⟩ := hd
    simp only [pvLoopMin] at h
    cases hr : pvChildEval f (depth - 1 + moveExtOf ext mi) alpha beta fp c with
    | none => rw [hr] at h; exact absurd h (by simp)
    | some ev =>
      rw [hr] at h
      simp only at h
      have hb' : min beta ev ≤ (if ev < minEval then ev else minEval) := by
        rcases hinv with h1 | ⟨h1, h2⟩ <;> split <;> omega
      split at h
      · rename_i hbrk
        simp only [Option.some.injEq, Prod.mk.injEq] at h
        obtain ⟨rfl, rfl, rfl⟩ := h
        omega
      · rename_i hbrk
        exact ih _ _ _ m bF br (Or.inl hb') h

/-- Claim C7 as amended: in the maximizing branch the stored classification is
EXACT exactly when the final score lies strictly inside the entry window
`(alpha, beta)`; in the minimizing branch the classification of
src/engine.cpp:979 compares against the beta the loop has already shrunk, so
the stored entry is never EXACT (it is always ALPHA).  The hypothesis
`beta ≤ INT_MAX` is the C++ `int` range of the window bound. -/
theorem claim_C7_store_classification (maxPly fuel : Nat) (t : GTree)
    (depth alpha beta : Int) (maximizing : Bool) (ply : Nat) (v : Int) (ty : NodeType)
    (hbI : beta ≤ INT_MAX)
    (h : pvSearchF maxPly fuel t depth alpha beta maximizing ply = some (v, some ty)) :
    (maximizing = true → (ty = NodeType.EXACT ↔ v > alpha ∧ v < beta)) ∧
    (maximizing = false → ty ≠ NodeType.EXACT) := by
  cases fuel with
  | zero => exact absurd h (by simp [pvSearchF])
  | succ fuel =>
    cases t with
    | node cm sm ic wmb cs =>
      cases maximizing with
      | true =>
        refine ⟨fun _ => ?_, fun hff => absurd hff (by simp)⟩
        simp only [pvSearchF] at h
        split at h
        · simp at h
        · split at h
          · cases hq : quiesceF maxPly fuel (GTree.node cm sm ic wmb cs) alpha beta true ply with
            | none => rw [hq] at h; simp at h
            | some p => rw [hq] at h; simp at h
          · split at h
            · simp at h
            · split at h
              · simp at h
              · split at h
                · cases hl : pvLoopMax
                      (fun c d a b =>
                        (pvSearchF maxPly fuel c d a b false (ply + 1)).map (·.1))
                      (if cs.length = 1 ∧ depth ≥ 2 then max (if ic then 1 else 0) 1
                       else (if ic then 1 else 0))
                      depth beta
                      ((sortDesc (cs.filterMap
                        (fun mc => (preFilterScore depth mc.1).map (fun s => (s, mc))))).map (·.2))
                      0 alpha INT_MIN false with
                  | none => rw [hl] at h; simp at h
                  | some p =>
                    obtain ⟨me, br⟩ := p
                    rw [hl] at h
                    simp only [Option.some.injEq, Prod.mk.injEq] at h
                    obtain ⟨rfl, hty⟩ := h
                    subst hty
                    split
                    · rename_i hc
                      simp [hc]
                    · rename_i hc
                      constructor
                      · intro hEq
                        split at hEq <;> exact absurd hEq (by decide)
                      · intro hcc
                        exact absurd hcc hc
                · rename_i hmx
                  simp at hmx
      | false =>
        refine ⟨fun hff => absurd hff (by simp), fun _ => ?_⟩
        simp only [pvSearchF] at h
        split at h
        · simp at h
        · split at h
          · cases hq : quiesceF maxPly fuel (GTree.node cm sm ic wmb cs) alpha beta false ply with
            | none => rw [hq] at h; simp at h
            | some p => rw [hq] at h; simp at h
          · split at h
            · simp at h
            · split at h
              · simp at h
              · split at h
                · rename_i hmx
                  simp at hmx
                · cases hl : pvLoopMin
                      (fun c d a b =>
                        (pvSearchF maxPly fuel c d a b true (ply + 1)).map (·.1))
                      (if cs.length = 1 ∧ depth ≥ 2 then max (if ic then 1 else 0) 1
                       else (if ic then 1 else 0))
                      depth alpha
                      ((sortDesc (cs.filterMap
                        (fun mc => (preFilterScore depth mc.1).map (fun s => (s, mc))))).map (·.2))
                      beta INT_MAX false with
                  | none => rw [hl] at h; simp at h
                  | some p =>
                    obtain ⟨me, bF, br⟩ := p
                    have hne := pvLoopMin_no_exact _ _ _ _ _ _ _ _ me bF br
                      (Or.inr ⟨rfl, hbI⟩) hl
                    rw [hl] at h
                    simp only [Option.some.injEq, Prod.mk.injEq] at h
                    obtain ⟨rfl, hty⟩ := h
                    subst hty
                    rw [if_neg (fun hcc => hne hcc.2)]
                    decide

/-- Witness for `claim_C7_store_classification` at a maximizing node storing
EXACT with score 3 strictly inside (0, 10). -/
theorem claim_C7_store_classification_witness :
    (true = true → (NodeType.EXACT = NodeType.EXACT ↔ (3 : Int) > 0 ∧ (3 : Int) < 10)) ∧
    (true = false → NodeType.EXACT ≠ NodeType.EXACT) :=
  claim_C7_store_classification 64 5 tmax 1 0 10 true 0 3 NodeType.EXACT
    (by decide) (by decide)

/-- Claim C7, counterexample: the claim states the stored entry is EXACT if
and only if the final score is strictly inside the entry window, in both
branches.  On the code, the minimizing node `cmin` searched with window
(0, 10) returns 5 — strictly inside — yet stores ALPHA, because the EXACT test
of src/engine.cpp:979 compares against the beta the loop shrank to 5. -/
theorem claim_C7_counterexample :
    pvSearchF 64 5 cmin 1 0 10 false 0 = some (5, some NodeType.ALPHA) ∧
    (0 : Int) < 5 ∧ (5 : Int) < 10 ∧ NodeType.ALPHA ≠ NodeType.EXACT := by
  refine ⟨by decide, by decide, by decide, by decide⟩

theorem Color.other_other (c : Color) : c.other.other = c := by
  cases c <;> rfl

/-- A square's contribution for `col` on the mirrored board is the reflected
square's contribution for the other color on the original board: a white piece
reads the table at `r*8+c` exactly where the mirrored black piece reads its
`blackTableIndex`, and vice versa. -/
theorem squareScore_mirror (b : EvalBoard) (eg : Bool) (r c : Nat) (col : Color)
    (hr : r < 8) :
    squareScore (mirror b) eg r c col = squareScore b eg (7 - r) c col.other := by
  have h7 : 7 - (7 - r) = r := by omega
  cases hp : b.pieceAt (7 - r) c with
  | none => simp [squareScore, mirror, hp]
  | some p =>
    obtain ⟨pt, pc⟩ := p
    cases pc <;> cases col <;>
      simp [squareScore, mirror, hp, Color.other, h7]

theorem colorScore_mirror (b : EvalBoard) (eg : Bool) (col : Color) :
    colorScore (mirror b) eg col = colorScore b eg col.other := by
  unfold colorScore
  have h1 : (∑ r in Finset.range 8, ∑ c in Finset.range 8,
        squareScore (mirror b) eg r c col)
      = ∑ r in Finset.range 8, ∑ c in Finset.range 8,
        squareScore b eg (7 - r) c col.other :=
    Finset.sum_congr rfl (fun r hr => Finset.sum_congr rfl
      (fun c _ => squareScore_mirror b eg r c col (Finset.mem_range.mp hr)))
  rw [h1]
  have h2 := Finset.sum_range_reflect
    (fun r => ∑ c in Finset.range 8, squareScore b eg r c col.other) 8
  simp only [show (8 : Nat) - 1 = 7 from rfl] at h2
  exact h2

theorem nonKPCount_mirror (b : EvalBoard) : nonKPCount (mirror b) = nonKPCount b := by
  unfold nonKPCount
  have hpt : ∀ r ∈ Finset.range 8, ∀ c ∈ Finset.range 8,
      (match (mirror b).pieceAt r c with
       | some (pt, _) => if pt ≠ PieceType.KING ∧ pt ≠ PieceType.PAWN then 1 else 0
       | none => 0) =
      (match b.pieceAt (7 - r) c with
       | some (pt, _) => if pt ≠ PieceType.KING ∧ pt ≠ PieceType.PAWN then 1 else 0
       | none => 0) := by
    intro r _ c _
    cases hp : b.pieceAt (7 - r) c with
    | none => simp [mirror, hp]
    | some p =>
      obtain ⟨pt, pc⟩ := p
      simp [mirror, hp]
  have h1 : (∑ r in Finset.range 8, ∑ c in Finset.range 8,
        (match (mirror b).pieceAt r c with
         | some (pt, _) => if pt ≠ PieceType.KING ∧ pt ≠ PieceType.PAWN then 1 else 0
         | none => 0))
      = ∑ r in Finset.range 8, ∑ c in Finset.range 8,
        (match b.pieceAt (7 - r) c with
         | some (pt, _) => if pt ≠ PieceType.KING ∧ pt ≠ PieceType.PAWN then 1 else 0
         | none => 0) :=
    Finset.sum_congr rfl (fun r hr => Finset.sum_congr rfl (fun c hc => hpt r hr c hc))
  rw [h1]
  have h2 := Finset.sum_range_reflect
    (fun r => ∑ c in Finset.range 8,
      (match b.pieceAt r c with
       | some (pt, _) => if pt ≠ PieceType.KING ∧ pt ≠ PieceType.PAWN then 1 else 0
       | none => 0)) 8
  simp only [show (8 : Nat) - 1 = 7 from rfl] at h2
  exact h2

theorem queenPresent_mirror (b : EvalBoard) (col : Color) :
    queenPresent (mirror b) col = queenPresent b col.other := by
  unfold queenPresent
  rw [Bool.eq_iff_iff]
  simp only [List.any_eq_true, List.mem_range, decide_eq_true_eq]
  constructor
  · rintro ⟨r, hr, c, hc, h⟩
    refine ⟨7 - r, by omega, c, hc, ?_⟩
    simp only [mirror, Option.map_eq_some'] at h
    obtain ⟨⟨pt, pc⟩, hbp, hflip⟩ := h
    simp only [Prod.mk.injEq] at hflip
    obtain ⟨rfl, hcol⟩ := hflip
    rw [← hcol, Color.other_other]
    exact hbp
  · rintro ⟨r, hr, c, hc, h⟩
    refine ⟨7 - r, by omega, c, hc, ?_⟩
    have h7 : 7 - (7 - r) = r := by omega
    simp only [mirror, h7, h, Option.map_some']
    rw [Color.other_other]

theorem isEndgame_mirror (b : EvalBoard) : isEndgame (mirror b) = isEndgame b := by
  unfold isEndgame
  rw [queenPresent_mirror, queenPresent_mirror, nonKPCount_mirror]
  simp only [Color.other]
  rw [Bool.and_comm]

/-- Claim C9 as amended: on positions that are not checkmate or stalemate, the
static evaluator is *invariant* under the color-flipped mirror — both
evaluations already being taken from the perspective of (their own) side to
move, the mirrored position is the same game for its mover, so the scores are
equal, not negated.  (Only the checkmate branch of src/engine.cpp:1267-1274,
which is keyed to the side to move, negates under mirroring.) -/
theorem claim_C9_mirror_eval_equal (b : EvalBoard)
    (hcm : b.checkmate = false) (hsm : b.stalemate = false) :
    evaluatePosition (mirror b) = evaluatePosition b := by
  simp only [evaluatePosition]
  rw [isEndgame_mirror, colorScore_mirror, colorScore_mirror]
  rw [show (mirror b).checkmate = b.checkmate from rfl,
    show (mirror b).stalemate = b.stalemate from rfl,
    show (mirror b).sideToMove = b.sideToMove.other from rfl, hcm, hsm]
  cases hstm : b.sideToMove <;> simp [Color.other]

/-- Witness for `claim_C9_mirror_eval_equal` at the concrete position `b9`. -/
theorem claim_C9_mirror_eval_equal_witness :
    evaluatePosition (mirror b9) = evaluatePosition b9 :=
  claim_C9_mirror_eval_equal b9 rfl rfl

/-- Claim C9, counterexample: the claim states the mirror evaluates to the
negated score.  On the code, `b9` (White up a queen, White to move) and its
mirror (Black up a queen, Black to move) both evaluate to 895, and
`895 ≠ −895`. -/
theorem claim_C9_counterexample :
    evaluatePosition b9 = 895 ∧ evaluatePosition (mirror b9) = 895 ∧
    (895 : Int) ≠ -895 := by
  refine ⟨by decide, by decide, by decide⟩

end Engine
